import Mathlib

/-!
Shallow embedding of the SM2 public-key encryption core of
`src/crypto/sm2/sm2_enc.c` (`SM2_do_encrypt`, `SM2_do_decrypt`).

Modelling conventions:

* Bytes are `Nat` (values kept below 256 by construction where it matters);
  machine buffers are `List Byte`.
* The elliptic-curve / bignum library and the digest library are external
  collaborators; they are embedded as records of (possibly failing)
  functions (`ECGroup`, `MD`).  An EC point is an abstract handle (`Nat`);
  only the group record gives it meaning.
* C pointers that may be `NULL` become `Option`.
* `OPENSSL_assert` aborts the process rather than returning an error; this
  is a distinct outcome (`.abort`) from the `goto err` error return
  (`.err`).
* The unbounded retry loop of `SM2_do_encrypt` is embedded with explicit
  fuel; running out of fuel is the outcome `.outOfFuel`.  Randomness
  (`BN_rand_range`) is an oracle `draws : Nat → Nat`, one value per call.
* The C code reads the KDF input from `buf - 1` with length `len - 1`,
  i.e. one byte of adjacent stack memory followed by the first `len - 2`
  bytes of the uncompressed point encoding.  The indeterminate byte that
  sits just before the stack buffer is passed in as the parameter `junk`.
* In `SM2_do_decrypt` the C source tests a variable `pub_key` that is
  never declared in that function; the only consistent referent (the name
  used for `EC_KEY_get0_public_key` in `SM2_do_encrypt`) is the public
  point carried by the key, so the embedding tests `ec_key.pub`.
-/

abbrev Byte := Nat

/-- An EC point handle; `Option Point` models a possibly-NULL `EC_POINT *`. -/
abbrev Point := Nat

/-- Big-endian byte rendering of a natural number on `k` bytes. -/
def natToBytesBE : Nat → Nat → List Byte
  | _, 0 => []
  | n, k + 1 => natToBytesBE (n / 256) k ++ [n % 256]

/-- Byte-length recursion with explicit fuel (so it reduces inside the
kernel): counts base-256 digits. -/
def numBytesAux : Nat → Nat → Nat
  | _, 0 => 0
  | n, fuel + 1 => if n = 0 then 0 else numBytesAux (n / 256) fuel + 1

/-- Number of bytes of a bignum, as OpenSSL `BN_num_bytes` computes it
(the number of base-256 digits; 0 for the zero bignum). -/
def BN_num_bytes (n : Nat) : Nat := numBytesAux n n

/-- An `EVP_MD` digest algorithm: its advertised output size
(`EVP_MD_size`), its digest function, and the X9.63 KDF the library
associates with it (`none` when `KDF_get_x9_63` would return `NULL`).
The KDF takes the input bytes and the requested output length. -/
structure MD where
  mdSize : Nat
  digest : List Byte → List Byte
  kdfImpl : Option (List Byte → Nat → List Byte)

/-- `KDF_get_x9_63`: look up the KDF function for a digest. -/
def KDF_get_x9_63 (md : MD) : Option (List Byte → Nat → List Byte) :=
  md.kdfImpl

/-- The EC group collaborator: domain-parameter queries and point
operations, each allowed to fail as the underlying library calls can. -/
structure ECGroup where
  getOrder : Option Nat
  getCofactor : Option Nat
  degree : Nat
  mulG : Nat → Option Point
  mulP : Point → Nat → Option Point
  isAtInfinity : Point → Bool
  point2oct : Point → Option (List Byte)

/-- An `EC_KEY`: group, public point and private scalar. -/
structure EC_KEY where
  group : Option ECGroup
  pub : Option Point
  priv : Nat

/-- The `SM2_CIPHERTEXT_VALUE` struct: ephemeral point C1, masked payload
C2 with its recorded size, MAC tag C3 with its recorded size. -/
structure SM2_CIPHERTEXT_VALUE where
  ephem_point : Point
  ciphertext : List Byte
  ciphertext_size : Nat
  mactag : List Byte
  mactag_size : Nat
deriving Repr, DecidableEq

/-- Outcome of `SM2_do_encrypt`: a ciphertext value, the `goto err`
NULL return, an `OPENSSL_assert` process abort, or fuel exhaustion of the
unbounded retry loop. -/
inductive EncResult where
  | ok (cv : SM2_CIPHERTEXT_VALUE)
  | err
  | abort
  | outOfFuel
deriving Repr, DecidableEq

/-- Outcome of `SM2_do_decrypt`: success (return 1), the `goto err`
return 0, or an `OPENSSL_assert` process abort. -/
inductive DecResult where
  | ok
  | err
  | abort
deriving Repr, DecidableEq

/-- Caller-visible result of `SM2_do_decrypt`: the return code, the final
value of `*outlen`, and the final contents of the output buffer. -/
structure DecOut where
  ret : DecResult
  outlen : Nat
  buf : List Byte
deriving Repr, DecidableEq

/-- The byte range the C code actually feeds to the KDF: it passes
`buf - 1` with length `len - 1`, so the input is one byte of adjacent
stack memory (`junk`) followed by all but the last two bytes of the
uncompressed point encoding `04 || x2 || y2`. -/
def kdfInputOf (junk : Byte) (octets : List Byte) : List Byte :=
  (junk :: octets).take (octets.length - 1)

/-- The in-place XOR loop `buf[i] ^= src[i]` for `i < cnt`. -/
def xorRange : List Byte → List Byte → Nat → List Byte
  | buf, _, 0 => buf
  | [], _, _ => []
  | b :: bs, src, cnt + 1 => (b ^^^ src.headD 0) :: xorRange bs (src.drop 1) cnt

/-- The retry loop of `SM2_do_encrypt` (steps A1–A7).  One unit of fuel is
one draw of `k`: the inner `BN_rand_range`/zero-rejection loop and the
outer all-zero-mask retry both re-enter here.  `idx` indexes the
randomness oracle. -/
def SM2_encLoop (g : ECGroup) (pub : Point) (mac_md : MD)
    (kdfFn : List Byte → Nat → List Byte) (n h nbytes : Nat)
    (input : List Byte) (junk : Byte) (draws : Nat → Nat) :
    Nat → Nat → EncResult
  | 0, _ => .outOfFuel
  | fuel + 1, idx =>
    -- A1: rand k in [1, n-1], redrawing on zero
    let k := draws idx % n
    if k = 0 then
      SM2_encLoop g pub mac_md kdfFn n h nbytes input junk draws fuel (idx + 1)
    else
      -- A2: C1 = [k]G
      match g.mulG k with
      | none => .err
      | some ephem =>
        -- A3: check [h]P_B != O
        match g.mulP pub h with
        | none => .err
        | some hP =>
          if g.isAtInfinity hP then .err
          else
            -- A4: [k]P_B = (x2, y2), uncompressed octets
            match g.mulP pub k with
            | none => .err
            | some shared =>
              match g.point2oct shared with
              | none => .err
              | some octets =>
                if octets.length ≠ 2 * nbytes + 1 then .abort
                else
                  -- A5: t = kdf(buf - 1, len - 1), klen = inlen
                  let mask := kdfFn (kdfInputOf junk octets) input.length
                  if (mask.take input.length).all (· == 0) then
                    SM2_encLoop g pub mac_md kdfFn n h nbytes input junk draws
                      fuel (idx + 1)
                  else
                    -- A6: C2 = M xor t
                    let c2 := xorRange mask input input.length
                    -- A7: C3 = Hash(x2 || M || y2)
                    let tag := mac_md.digest
                      ((octets.drop 1).take nbytes ++ input ++
                        (octets.drop (1 + nbytes)).take nbytes)
                    .ok { ephem_point := ephem
                          ciphertext := c2
                          ciphertext_size := input.length
                          mactag := tag
                          mactag_size := tag.length }

/-- `SM2_do_encrypt` from `src/crypto/sm2/sm2_enc.c`: argument checks,
domain-parameter derivation, the `OPENSSL_assert` size checks, then the
retry loop. -/
def SM2_do_encrypt (kdf_md mac_md : MD) (input : List Byte)
    (ec_key : EC_KEY) (draws : Nat → Nat) (junk : Byte) (fuel : Nat) :
    EncResult :=
  match ec_key.group, ec_key.pub with
  | some g, some pub =>
    match KDF_get_x9_63 kdf_md with
    | none => .err
    | some kdfFn =>
      match g.getOrder with
      | none => .err
      | some n =>
        match g.getCofactor with
        | none => .err
        | some h =>
          let nbytes := (g.degree + 7) / 8
          if BN_num_bytes n = nbytes then
            if nbytes = 32 then
              if kdf_md.mdSize = 32 then
                if mac_md.mdSize = 32 then
                  SM2_encLoop g pub mac_md kdfFn n h nbytes input junk draws
                    fuel 0
                else .abort
              else .abort
            else .abort
          else .abort
  | _, _ => .err

/-- Step B4 of `SM2_do_decrypt`, exactly as called: the KDF over the
`buf - 1` range, with output length the caller capacity `*outlen`. -/
def decMask (f : List Byte → Nat → List Byte) (junk : Byte)
    (octets : List Byte) (outlen0 : Nat) : List Byte :=
  f (kdfInputOf junk octets) outlen0

/-- Steps B4–B5 of `SM2_do_decrypt`: the candidate-plaintext buffer after
the XOR loop `out[i] ^= cv->ciphertext[i]` over the mask. -/
def decCandidate (f : List Byte → Nat → List Byte) (junk : Byte)
    (octets : List Byte) (outlen0 : Nat) (cv : SM2_CIPHERTEXT_VALUE) :
    List Byte :=
  xorRange (decMask f junk octets outlen0) cv.ciphertext cv.ciphertext_size

/-- Step B6 of `SM2_do_decrypt`: the MAC recomputed over
`x2 || out[0..*outlen) || y2`. -/
def decMac (mac_md : MD) (nbytes : Nat) (octets buf1 : List Byte)
    (outlen0 : Nat) : List Byte :=
  mac_md.digest ((octets.drop 1).take nbytes ++ buf1.take outlen0 ++
    (octets.drop (1 + nbytes)).take nbytes)

/-- `SM2_do_decrypt` from `src/crypto/sm2/sm2_enc.c`.  `hasOut` is whether
the caller passed an output buffer (`out != NULL`), `out0` its initial
contents and `outlen0` the entry value of `*outlen` (the capacity). -/
def SM2_do_decrypt (cv : SM2_CIPHERTEXT_VALUE) (kdf_md mac_md : MD)
    (hasOut : Bool) (out0 : List Byte) (outlen0 : Nat) (ec_key : EC_KEY)
    (junk : Byte) : DecOut :=
  match ec_key.group, ec_key.pub with
  | some g, some _pub =>
    match KDF_get_x9_63 kdf_md with
    | none => ⟨.err, outlen0, out0⟩
    | some kdfFn =>
      if hasOut = false then ⟨.ok, cv.ciphertext_size, out0⟩
      else if outlen0 < cv.ciphertext_size then ⟨.err, outlen0, out0⟩
      else
        match g.getOrder with
        | none => ⟨.err, outlen0, out0⟩
        | some n =>
          match g.getCofactor with
          | none => ⟨.err, outlen0, out0⟩
          | some h =>
            let nbytes := (g.degree + 7) / 8
            if BN_num_bytes n = nbytes then
              if nbytes = 32 then
                if kdf_md.mdSize = 32 then
                  if mac_md.mdSize = 32 then
                    -- B2: check [h]C1 != O
                    match g.mulP cv.ephem_point h with
                    | none => ⟨.err, outlen0, out0⟩
                    | some hC1 =>
                      if g.isAtInfinity hC1 then ⟨.err, outlen0, out0⟩
                      else
                        -- B3: [d]C1 = (x2, y2)
                        match g.mulP cv.ephem_point ec_key.priv with
                        | none => ⟨.err, outlen0, out0⟩
                        | some shared =>
                          match g.point2oct shared with
                          | none => ⟨.err, outlen0, out0⟩
                          | some octets =>
                            -- B4/B5: mask of length *outlen, XOR in C2
                            let buf1 := decCandidate kdfFn junk octets outlen0 cv
                            -- B6: Hash(x2 || out[0..*outlen) || y2) vs C3
                            let mac := decMac mac_md nbytes octets buf1 outlen0
                            if cv.mactag_size ≠ mac.length ∨
                                cv.mactag.take mac.length ≠ mac then
                              ⟨.err, outlen0, buf1⟩
                            else ⟨.ok, outlen0, buf1⟩
                  else ⟨.abort, outlen0, out0⟩
                else ⟨.abort, outlen0, out0⟩
              else ⟨.abort, outlen0, out0⟩
            else ⟨.abort, outlen0, out0⟩
  | _, _ => ⟨.err, outlen0, out0⟩

/-!
Concrete instantiation of the external collaborators.  The core treats the
EC group and the digests as opaque function tables, so any tables with the
right shapes exercise it; these are chosen small enough to evaluate inside
proofs while satisfying every size assertion (256-bit order, 32-byte
digests, 65-byte uncompressed encodings) and the Diffie-Hellman equation
`mulP (mulG k) d = mulP (mulG d) k` that round-trips rely on.
-/

/-- A 32-byte digest: a length-and-sum checksum byte (never zero) followed
by 31 copies of the input length mod 256. -/
def toyDigest (l : List Byte) : List Byte :=
  ((l.sum + l.length) % 255 + 1) :: List.replicate 31 (l.length % 256)

/-- An X9.63-style expansion of `toyDigest` (two counter blocks, truncated
to the requested length). -/
def toyKdfFun (l : List Byte) (outlen : Nat) : List Byte :=
  (toyDigest (l ++ [0, 0, 0, 1]) ++ toyDigest (l ++ [0, 0, 0, 2])).take outlen

/-- A valid 32-byte-output digest with a registered KDF. -/
def toyMD : MD :=
  { mdSize := 32, digest := toyDigest, kdfImpl := some toyKdfFun }

/-- A digest advertising a 16-byte output size (still KDF-registered). -/
def md16 : MD :=
  { mdSize := 16, digest := fun l => (toyDigest l).take 16,
    kdfImpl := some toyKdfFun }

/-- A 256-bit group order, so that `BN_num_bytes toyOrder = 32`. -/
def toyOrder : Nat := 2 ^ 255 + 9

/-- The concrete group table: points are nonzero naturals, infinity is 0,
`[k]G = k + 1` and `[s]P = P + s`, encodings are `04 || x2 || y2` with
`x2 = P` and `y2 = P + 1` on 32 bytes each. -/
def toyGroup : ECGroup :=
  { getOrder := some toyOrder
    getCofactor := some 1
    degree := 256
    mulG := fun k => some (k + 1)
    mulP := fun p s => some (p + s)
    isAtInfinity := fun p => p == 0
    point2oct := fun p =>
      if p = 0 then none
      else some (4 :: natToBytesBE p 32 ++ natToBytesBE (p + 1) 32) }

/-- A key pair on `toyGroup`: private scalar 7, public point `[7]G = 8`. -/
def toyKey : EC_KEY :=
  { group := some toyGroup, pub := some 8, priv := 7 }

/-- The ciphertext value `SM2_do_encrypt toyMD toyMD [5] toyKey (fun _ => 3) 0 1`
produces: C1 = [3]G = 4, C2 = one masked byte, C3 = `toyDigest` of the
65-byte x2 ‖ M ‖ y2. -/
def toyCv : SM2_CIPHERTEXT_VALUE :=
  { ephem_point := 4, ciphertext := [80], ciphertext_size := 1,
    mactag := 94 :: List.replicate 31 65, mactag_size := 32 }

/-- The uncompressed encoding of the shared point `[3]P = [7]C1 = 11` of
the `toyCv` exchange: `04 ‖ x2 ‖ y2` on 65 bytes. -/
def toyOctets : List Byte := 4 :: natToBytesBE 11 32 ++ natToBytesBE 12 32

/-- `toyCv` with the first MAC-tag byte flipped from 94 to 95. -/
def tamperedCv : SM2_CIPHERTEXT_VALUE :=
  { toyCv with mactag := 95 :: List.replicate 31 65 }

/-- `toyGroup` whose order query fails (`EC_GROUP_get_order` returns 0). -/
def gNoOrder : ECGroup := { toyGroup with getOrder := none }

/-- A key on `gNoOrder`. -/
def keyNoOrder : EC_KEY := { group := some gNoOrder, pub := some 8, priv := 7 }

/-- `toyGroup` with cofactor 0, so `[h]P = P + 0` is the infinity handle
whenever `P = 0`. -/
def toyGroupH0 : ECGroup := { toyGroup with getCofactor := some 0 }

/-- A key whose public point handle is the point at infinity, on the
cofactor-0 group: `[h]P_B = 0 + 0 = O`. -/
def keyH0 : EC_KEY := { group := some toyGroupH0, pub := some 0, priv := 7 }

/-- A key that carries a group and a private scalar but no public point. -/
def keyNoPub : EC_KEY := { group := some toyGroup, pub := none, priv := 7 }

/-- `natToBytesBE` always renders exactly `k` bytes. -/
theorem natToBytesBE_length (k n : Nat) : (natToBytesBE n k).length = k := by
  induction k generalizing n with
  | zero => rfl
  | succ k ih => simp [natToBytesBE, ih]

/-- Every `.ok` exit of the retry loop carries `ciphertext_size = inlen`:
the size field is set once from `inlen` and the KDF call is given that
same length back. -/
theorem SM2_encLoop_ok_size (g : ECGroup) (pub : Point) (mac_md : MD)
    (kdfFn : List Byte → Nat → List Byte) (n h nbytes : Nat)
    (input : List Byte) (junk : Byte) (draws : Nat → Nat) :
    ∀ fuel idx cv,
      SM2_encLoop g pub mac_md kdfFn n h nbytes input junk draws fuel idx =
        .ok cv →
      cv.ciphertext_size = input.length := by
  intro fuel
  induction fuel with
  | zero => intro idx cv hcv; exact absurd hcv (by simp [SM2_encLoop])
  | succ f ih =>
    intro idx cv hcv
    simp only [SM2_encLoop] at hcv
    repeat' split at hcv
    all_goals first | exact ih _ _ hcv | (cases hcv <;> rfl)

/-- On the zero-length message, each pass of the toy-instantiated retry
loop reaches the all-zero-mask test, which always holds, and re-enters
the loop: no amount of fuel reaches an exit. -/
theorem toy_encLoop_empty (draws : Nat → Nat) (junk : Byte) :
    ∀ fuel idx,
      SM2_encLoop toyGroup 8 toyMD toyKdfFun toyOrder 1 32 [] junk draws
        fuel idx = .outOfFuel := by
  intro fuel
  induction fuel with
  | zero => intro idx; rfl
  | succ f ih =>
    intro idx
    simp only [SM2_encLoop]
    by_cases hk : draws idx % toyOrder = 0
    · simp only [hk, if_pos rfl]
      exact ih (idx + 1)
    · simp [toyGroup, natToBytesBE_length, hk,
        show ¬(8 + draws idx % toyOrder = 0) from by omega]
      exact ih (idx + 1)

/-- C6: when `SM2_do_encrypt` is called with a zero-length message, the
all-zero-KDF-output retry check holds on every iteration (a zero-length
mask is vacuously all zero), and the uncapped retry loop never exits: on
a fully valid key and digest configuration, for every randomness oracle
and every amount of fuel, the call exhausts its fuel instead of
terminating. -/
theorem sm2_encrypt_empty_message_diverges (draws : Nat → Nat) (junk : Byte)
    (fuel : Nat) :
    SM2_do_encrypt toyMD toyMD [] toyKey draws junk fuel = .outOfFuel := by
  simp only [SM2_do_encrypt, KDF_get_x9_63, toyKey, toyMD]
  norm_num [toyGroup, show BN_num_bytes toyOrder = 32 from by decide]
  exact toy_encLoop_empty draws junk fuel 0

/-- C9: every successful `SM2_do_encrypt` call records a masked-payload
length equal to the plaintext length (`cv->ciphertext_size == inlen`):
the scheme is length-preserving and unpadded. -/
theorem sm2_encrypt_length_preserving (kdf_md mac_md : MD)
    (input : List Byte) (ec_key : EC_KEY) (draws : Nat → Nat) (junk : Byte)
    (fuel : Nat) (cv : SM2_CIPHERTEXT_VALUE)
    (h : SM2_do_encrypt kdf_md mac_md input ec_key draws junk fuel = .ok cv) :
    cv.ciphertext_size = input.length := by
  obtain ⟨gO, pubO, priv⟩ := ec_key
  obtain ⟨kSz, kDg, kImpl⟩ := kdf_md
  cases gO with
  | none => cases h
  | some g =>
  cases pubO with
  | none => cases h
  | some pub =>
  obtain ⟨ordO, cofO, deg, mg, mp, infty, p2o⟩ := g
  cases kImpl with
  | none => cases h
  | some kdfFn =>
  cases ordO with
  | none => cases h
  | some n =>
  cases cofO with
  | none => cases h
  | some hcof =>
  dsimp only [SM2_do_encrypt, KDF_get_x9_63] at h
  by_cases h1 : BN_num_bytes n = (deg + 7) / 8
  rotate_left
  · rw [if_neg h1] at h; cases h
  rw [if_pos h1] at h
  by_cases h2 : (deg + 7) / 8 = 32
  rotate_left
  · rw [if_neg h2] at h; cases h
  rw [if_pos h2] at h
  by_cases h3 : kSz = 32
  rotate_left
  · rw [if_neg h3] at h; cases h
  rw [if_pos h3] at h
  by_cases h4 : mac_md.mdSize = 32
  rotate_left
  · rw [if_neg h4] at h; cases h
  rw [if_pos h4] at h
  exact SM2_encLoop_ok_size _ _ _ _ _ _ _ _ _ _ _ _ _ h

/-- Witness for `sm2_encrypt_length_preserving`: a concrete successful
encryption of the one-byte message `[5]`. -/
theorem sm2_encrypt_length_preserving_witness :
    SM2_do_encrypt toyMD toyMD [5] toyKey (fun _ => 3) 0 1 = .ok toyCv ∧
    toyCv.ciphertext_size = 1 :=
  ⟨by decide,
    sm2_encrypt_length_preserving toyMD toyMD [5] toyKey (fun _ => 3) 0 1
      toyCv (by decide)⟩

/-- C8: calling `SM2_do_decrypt` in capacity-query mode (no output
buffer) returns success with `*outlen` set to `cv->ciphertext_size`, the
required plaintext length, and does not touch the output storage. -/
theorem sm2_decrypt_size_query (cv : SM2_CIPHERTEXT_VALUE)
    (kdf_md mac_md : MD) (out0 : List Byte) (outlen0 : Nat)
    (ec_key : EC_KEY) (junk : Byte) (g : ECGroup) (pub : Point)
    (f : List Byte → Nat → List Byte)
    (hg : ec_key.group = some g) (hp : ec_key.pub = some pub)
    (hk : kdf_md.kdfImpl = some f) :
    SM2_do_decrypt cv kdf_md mac_md false out0 outlen0 ec_key junk =
      ⟨.ok, cv.ciphertext_size, out0⟩ := by
  simp [SM2_do_decrypt, KDF_get_x9_63, hg, hp, hk]

/-- Witness for `sm2_decrypt_size_query` at a concrete ciphertext value. -/
theorem sm2_decrypt_size_query_witness :
    SM2_do_decrypt toyCv toyMD toyMD false [9] 0 toyKey 0 = ⟨.ok, 1, [9]⟩ :=
  sm2_decrypt_size_query toyCv toyMD toyMD [9] 0 toyKey 0 toyGroup 8
    toyKdfFun rfl rfl rfl

/-- C10 (amended): in capacity-query mode `SM2_do_decrypt` returns
success after checking only that the key carries a group and a public
point and that a KDF can be constructed from the KDF digest; the
digest-size checks, the domain-parameter derivation and the
cofactor/infinity validation are all skipped, so the query succeeds even
with non-32-byte digests and a group whose order query fails — inputs a
full decryption call would reject. -/
theorem sm2_size_query_skips_checks (cv : SM2_CIPHERTEXT_VALUE)
    (kdf_md mac_md : MD) (out0 : List Byte) (outlen0 : Nat)
    (ec_key : EC_KEY) (junk : Byte) (g : ECGroup) (pub : Point)
    (f : List Byte → Nat → List Byte)
    (hg : ec_key.group = some g) (hp : ec_key.pub = some pub)
    (hk : kdf_md.kdfImpl = some f)
    (_hkdfsz : kdf_md.mdSize ≠ 32) (_hmacsz : mac_md.mdSize ≠ 32)
    (_hord : g.getOrder = none) :
    SM2_do_decrypt cv kdf_md mac_md false out0 outlen0 ec_key junk =
      ⟨.ok, cv.ciphertext_size, out0⟩ := by
  simp [SM2_do_decrypt, KDF_get_x9_63, hg, hp, hk]

/-- Witness for `sm2_size_query_skips_checks`: the query succeeds with
16-byte digests on a group whose order query fails. -/
theorem sm2_size_query_skips_checks_witness :
    SM2_do_decrypt toyCv md16 md16 false [] 5 keyNoOrder 0 = ⟨.ok, 1, []⟩ :=
  sm2_size_query_skips_checks toyCv md16 md16 [] 5 keyNoOrder 0 gNoOrder 8
    toyKdfFun rfl rfl rfl (by decide) (by decide) rfl

/-- Counterexample to C10 as stated: the capacity query does not succeed
after checking only the group and the KDF — the code also requires a
non-NULL public point (`if (!ec_group || !pub_key)`), so a key carrying
a group and a constructible KDF but no public point makes the query
return failure. -/
theorem sm2_size_query_requires_pub_cex :
    SM2_do_decrypt toyCv toyMD toyMD false [] 0 keyNoPub 0 =
      ⟨.err, 0, []⟩ := by
  decide

/-- C7: when the cofactor multiple [h]P_B of the recipient public point
is the point at infinity, `SM2_do_encrypt` takes the hard `goto err` path
on the very first pass of the loop: it returns the NULL/error outcome (no
ciphertext value), independent of the remaining fuel — a fatal failure,
not a retry. -/
theorem sm2_encrypt_cofactor_infinity_err (kdf_md mac_md : MD)
    (input : List Byte) (ec_key : EC_KEY) (draws : Nat → Nat) (junk : Byte)
    (fuel : Nat) (g : ECGroup) (pub : Point)
    (f : List Byte → Nat → List Byte) (n0 h0 : Nat) (e0 ptH : Point)
    (hg : ec_key.group = some g) (hp : ec_key.pub = some pub)
    (hk : kdf_md.kdfImpl = some f)
    (hord : g.getOrder = some n0) (hcof : g.getCofactor = some h0)
    (hnb : BN_num_bytes n0 = (g.degree + 7) / 8)
    (hdeg : (g.degree + 7) / 8 = 32)
    (hks : kdf_md.mdSize = 32) (hms : mac_md.mdSize = 32)
    (hk0 : draws 0 % n0 ≠ 0)
    (hmg : g.mulG (draws 0 % n0) = some e0)
    (hmh : g.mulP pub h0 = some ptH)
    (hinf : g.isAtInfinity ptH = true) :
    SM2_do_encrypt kdf_md mac_md input ec_key draws junk (fuel + 1) =
      .err := by
  simp [SM2_do_encrypt, SM2_encLoop, KDF_get_x9_63, hg, hp, hk, hord, hcof,
    hnb, hdeg, hks, hms, hk0, hmg, hmh, hinf]

/-- Witness for `sm2_encrypt_cofactor_infinity_err`: the infinity public
handle on the cofactor-0 group makes [h]P_B the point at infinity. -/
theorem sm2_encrypt_cofactor_infinity_err_witness :
    SM2_do_encrypt toyMD toyMD [5] keyH0 (fun _ => 3) 0 1 = .err :=
  sm2_encrypt_cofactor_infinity_err toyMD toyMD [5] keyH0 (fun _ => 3) 0 0
    toyGroupH0 0 toyKdfFun toyOrder 0 4 0 rfl rfl rfl rfl rfl (by decide)
    (by decide) rfl rfl (by decide) (by decide) rfl rfl

/-- C5 (amended): a KDF or MAC digest whose output size is not 32 bytes
makes both `SM2_do_encrypt` and `SM2_do_decrypt` hit `OPENSSL_assert` and
abort the process — no error value is returned to the caller — and the
abort happens only after the EC domain-parameter work (point allocation
and the group order/cofactor queries) has succeeded, not before every EC
operation. -/
theorem sm2_digest_size_abort (kdf_md mac_md : MD) (input : List Byte)
    (ec_key : EC_KEY) (draws : Nat → Nat) (junk : Byte) (fuel : Nat)
    (cv : SM2_CIPHERTEXT_VALUE) (out0 : List Byte) (outlen0 : Nat)
    (g : ECGroup) (pub : Point) (f : List Byte → Nat → List Byte)
    (n0 h0 : Nat)
    (hg : ec_key.group = some g) (hp : ec_key.pub = some pub)
    (hk : kdf_md.kdfImpl = some f)
    (hord : g.getOrder = some n0) (hcof : g.getCofactor = some h0)
    (hnb : BN_num_bytes n0 = (g.degree + 7) / 8)
    (hdeg : (g.degree + 7) / 8 = 32)
    (hsz : kdf_md.mdSize ≠ 32 ∨ mac_md.mdSize ≠ 32)
    (hcap : cv.ciphertext_size ≤ outlen0) :
    SM2_do_encrypt kdf_md mac_md input ec_key draws junk fuel = .abort ∧
    SM2_do_decrypt cv kdf_md mac_md true out0 outlen0 ec_key junk =
      ⟨.abort, outlen0, out0⟩ := by
  have hnl : ¬ outlen0 < cv.ciphertext_size := Nat.not_lt.mpr hcap
  rcases hsz with hsz | hsz
  · constructor <;>
      simp [SM2_do_encrypt, SM2_do_decrypt, KDF_get_x9_63, hg, hp, hk,
        hord, hcof, hnb, hdeg, hsz, hnl]
  · by_cases hks : kdf_md.mdSize = 32 <;> constructor <;>
      simp [SM2_do_encrypt, SM2_do_decrypt, KDF_get_x9_63, hg, hp, hk,
        hord, hcof, hnb, hdeg, hsz, hks, hnl]

/-- Witness for `sm2_digest_size_abort`: the 16-byte digest in the KDF
role aborts both operations on the toy configuration. -/
theorem sm2_digest_size_abort_witness :
    SM2_do_encrypt md16 toyMD [5] toyKey (fun _ => 3) 0 1 = .abort ∧
    SM2_do_decrypt toyCv md16 toyMD true [0] 1 toyKey 0 =
      ⟨.abort, 1, [0]⟩ :=
  sm2_digest_size_abort md16 toyMD [5] toyKey (fun _ => 3) 0 1 toyCv [0] 1
    toyGroup 8 toyKdfFun toyOrder 1 rfl rfl rfl rfl rfl (by decide) rfl
    (Or.inl (by decide)) (by decide)

/-- Counterexample to C5 as stated: with a 16-byte KDF digest the calls
do not return a configuration error to the caller (`.err`); they abort
via `OPENSSL_assert`.  And when the EC group-order query fails, the
caller sees that EC failure (`.err`) even though the digest size is also
wrong — so the digest check does not run before any EC operation. -/
theorem sm2_digest_size_abort_cex :
    SM2_do_encrypt md16 toyMD [5] toyKey (fun _ => 3) 0 1 = .abort ∧
    SM2_do_encrypt md16 toyMD [5] toyKey (fun _ => 3) 0 1 ≠ .err ∧
    SM2_do_encrypt md16 toyMD [5] keyNoOrder (fun _ => 3) 0 1 = .err := by
  decide

/-- C2 (amended): whenever the recomputed MAC differs from `cv->mactag`
in length or content, `SM2_do_decrypt` returns failure (0) — but the
candidate plaintext is left in the caller-visible output buffer: the
error path does not clear it. -/
theorem sm2_decrypt_mac_mismatch_fails (cv : SM2_CIPHERTEXT_VALUE)
    (kdf_md mac_md : MD) (out0 : List Byte) (outlen0 : Nat)
    (ec_key : EC_KEY) (junk : Byte) (g : ECGroup) (pub : Point)
    (f : List Byte → Nat → List Byte) (n0 h0 : Nat) (ptH sh : Point)
    (octets : List Byte)
    (hg : ec_key.group = some g) (hp : ec_key.pub = some pub)
    (hk : kdf_md.kdfImpl = some f)
    (hcap : cv.ciphertext_size ≤ outlen0)
    (hord : g.getOrder = some n0) (hcof : g.getCofactor = some h0)
    (hnb : BN_num_bytes n0 = (g.degree + 7) / 8)
    (hdeg : (g.degree + 7) / 8 = 32)
    (hks : kdf_md.mdSize = 32) (hms : mac_md.mdSize = 32)
    (hmulh : g.mulP cv.ephem_point h0 = some ptH)
    (hinf : g.isAtInfinity ptH = false)
    (hmuld : g.mulP cv.ephem_point ec_key.priv = some sh)
    (hoct : g.point2oct sh = some octets)
    (hmac : cv.mactag_size ≠
        (decMac mac_md 32 octets (decCandidate f junk octets outlen0 cv)
          outlen0).length ∨
      cv.mactag.take
          (decMac mac_md 32 octets (decCandidate f junk octets outlen0 cv)
            outlen0).length ≠
        decMac mac_md 32 octets (decCandidate f junk octets outlen0 cv)
          outlen0) :
    SM2_do_decrypt cv kdf_md mac_md true out0 outlen0 ec_key junk =
      ⟨.err, outlen0, decCandidate f junk octets outlen0 cv⟩ := by
  have hnl : ¬ outlen0 < cv.ciphertext_size := Nat.not_lt.mpr hcap
  simp [SM2_do_decrypt, KDF_get_x9_63, hg, hp, hk, hord, hcof, hnb, hdeg,
    hks, hms, hmulh, hinf, hmuld, hoct, hnl, hmac]

/-- Witness for `sm2_decrypt_mac_mismatch_fails`: the tampered tag makes
decryption fail while the buffer holds the candidate plaintext. -/
theorem sm2_decrypt_mac_mismatch_fails_witness :
    SM2_do_decrypt tamperedCv toyMD toyMD true [0] 1 toyKey 0 =
      ⟨.err, 1, decCandidate toyKdfFun 0 toyOctets 1 tamperedCv⟩ :=
  sm2_decrypt_mac_mismatch_fails tamperedCv toyMD toyMD [0] 1 toyKey 0
    toyGroup 8 toyKdfFun toyOrder 1 5 11 toyOctets rfl rfl rfl
    (by decide) rfl rfl (by decide) (by decide) rfl rfl (by decide)
    (by decide) (by decide) (by decide) (Or.inr (by decide))

/-- Counterexample to C2 as stated: on this MAC mismatch the call indeed
returns failure, but the caller-visible buffer is left holding exactly
the decrypted plaintext `[5]` — the original message of the exchange —
so the candidate plaintext does reach the caller's buffer. -/
theorem sm2_decrypt_leaves_plaintext_cex :
    SM2_do_decrypt tamperedCv toyMD toyMD true [0] 1 toyKey 0 =
      ⟨.err, 1, [5]⟩ ∧
    SM2_do_decrypt toyCv toyMD toyMD true [0] 1 toyKey 0 =
      ⟨.ok, 1, [5]⟩ := by
  decide

/-- C1 (evaluated at the failing input): the round trip fails on an
output capacity strictly larger than the message.  Encrypting `[5]` with
the toy collaborators produces `toyCv`, but decrypting `toyCv` with the
matching private key and capacity 2 ≥ |M| = 1 returns failure, because
`SM2_do_decrypt` sizes its KDF mask and its MAC input by the caller
capacity `*outlen` instead of `cv->ciphertext_size` (and both sides feed
the KDF from `buf - 1`, one byte before the point encoding). -/
theorem sm2_roundtrip_failure_eval :
    SM2_do_encrypt toyMD toyMD [5] toyKey (fun _ => 3) 0 1 = .ok toyCv ∧
    SM2_do_decrypt toyCv toyMD toyMD true [0, 0] 2 toyKey 0 =
      ⟨.err, 2, [5, 68]⟩ := by
  decide

/-- C3 (evaluated at the failing input): the byte range fed to the KDF —
used verbatim inside `SM2_do_encrypt` and `SM2_do_decrypt` as
`kdfInputOf` — is not the concatenation x2 ‖ y2: for the shared-point
encoding `toyOctets = 04 ‖ x2 ‖ y2` of the toy exchange it is the
adjacent stack byte followed by `04 ‖ x2 ‖ y2` truncated two bytes
short, exactly the `buf - 1 / len - 1` range the C code passes. -/
theorem sm2_kdf_input_off_by_one_eval :
    kdfInputOf 0 toyOctets = 0 :: toyOctets.take 63 ∧
    kdfInputOf 0 toyOctets ≠ toyOctets.drop 1 := by
  decide

/-- C4 (evaluated at the failing input): decryption of the same valid
ciphertext value succeeds with capacity exactly `cv->ciphertext_size` but
fails with capacity one byte larger, so the KDF mask length and the MAC
input are not `cv->ciphertext_size` bytes independent of the declared
capacity — they are `*outlen` bytes. -/
theorem sm2_decrypt_capacity_dependence_eval :
    (SM2_do_decrypt toyCv toyMD toyMD true [0] 1 toyKey 0).ret =
      DecResult.ok ∧
    (SM2_do_decrypt toyCv toyMD toyMD true [0, 0] 2 toyKey 0).ret =
      DecResult.err ∧
    decMask toyKdfFun 0 toyOctets 2 ≠ decMask toyKdfFun 0 toyOctets 1 := by
  decide
